import Mathlib

/-!
Verification of the wanon-go quote bot core: cache ingest/edit/eviction,
the reply-chain thread builder, quote storage and rendering.

The Go code is shallowly embedded: database tables become Lists of rows,
GORM point lookups become List.find?, loops with early exit become
fuel-indexed recursive functions where the value none marks a run that
did not finish within the given fuel (so a function that returns none for
every fuel diverges), and the opaque JSON message payload becomes the
structure Msg mirroring the Go struct cache.Message (JSON marshalling and
unmarshalling of that struct is modelled as the identity).
-/

namespace Wanon

/-- Telegram user, mirroring the Go struct cache.User.  Go strings have no
null value, so an absent name field is the empty string, exactly as in Go. -/
structure TgUser where
  id : Int
  firstName : String
  lastName : String
  username : String
deriving Repr, DecidableEq

/-- Message payload, mirroring the Go struct cache.Message.  The Go field
From is a nullable pointer, hence Option; ReplyTo is a nullable nested
message of which only the message id is ever read, hence Option Int. -/
structure Msg where
  messageID : Int
  chatID : Int
  date : Int
  text : String
  fromUser : Option TgUser
  replyTo : Option Int
deriving Repr, DecidableEq

/-- Row of the cache table, mirroring the Go struct CacheEntry shared in
shape by the cache package (table cache_entries) and the quotes package
(table cache_entry): ChatID, MessageID, nullable ReplyID, Date and the
message JSON payload. -/
structure CacheEntry where
  chatID : Int
  messageID : Int
  replyID : Option Int
  date : Int
  message : Msg
deriving Repr, DecidableEq

/-- GORM point lookup Where(chat_id = ? AND message_id = ?).First: the
first row of the table matching both keys. -/
def lookupEntry (s : List CacheEntry) (chatID messageID : Int) : Option CacheEntry :=
  s.find? (fun e => e.chatID == chatID && e.messageID == messageID)

/-- Loop of Builder.BuildFrom (quotes/builder.go): while currentID is not 0,
fetch (chatID, currentID); stop on a miss; otherwise prepend the row and
follow a present, non-zero ReplyID.  There is no visited set.  Fuel bounds
the number of iterations we unfold; none means the loop was still running
when the fuel ran out. -/
def buildLoop (s : List CacheEntry) (chatID : Int) :
    Nat → Int → List CacheEntry → Option (List CacheEntry)
  | 0, _, _ => none
  | fuel + 1, currentID, entries =>
    if currentID == 0 then some entries
    else
      match lookupEntry s chatID currentID with
      | none => some entries
      | some entry =>
        match entry.replyID with
        | some r => if r == 0 then some (entry :: entries) else buildLoop s chatID fuel r (entry :: entries)
        | none => some (entry :: entries)

/-- Result of Builder.BuildFrom. -/
structure BuildResult where
  entries : List CacheEntry
  chatID : Int
deriving Repr, DecidableEq

/-- The only builder failure in scope: no cache entries found for the
message in the chat (quotes/builder.go line 77). -/
inductive BuildError where
  | notFound (messageID chatID : Int)
deriving Repr, DecidableEq

/-- Builder.BuildFrom: run the loop, then fail with notFound when the
collected list is empty, otherwise return it with the chat id. -/
def buildFrom (s : List CacheEntry) (chatID messageID : Int) (fuel : Nat) :
    Option (Except BuildError BuildResult) :=
  (buildLoop s chatID fuel messageID []).map (fun entries =>
    if entries.isEmpty then Except.error (BuildError.notFound messageID chatID)
    else Except.ok ⟨entries, chatID⟩)

/-- Arbitrary payload used to populate concrete cache states. -/
def dummyMsg : Msg := ⟨0, 0, 0, "", none, none⟩

/-- Cache state whose reply links form a two-cycle in chat 7: message 1
replies to message 2 and message 2 replies to message 1. -/
def cyclicCache : List CacheEntry :=
  [⟨7, 1, some 2, 0, dummyMsg⟩, ⟨7, 2, some 1, 0, dummyMsg⟩]

lemma cyclic_buildLoop_diverges :
    ∀ fuel acc, buildLoop cyclicCache 7 fuel 1 acc = none ∧
      buildLoop cyclicCache 7 fuel 2 acc = none := by
  intro fuel
  induction fuel with
  | zero => intro acc; exact ⟨rfl, rfl⟩
  | succ n ih =>
    intro acc
    constructor
    · show buildLoop cyclicCache 7 (n + 1) 1 acc = none
      simp only [buildLoop, lookupEntry, cyclicCache, List.find?]
      norm_num
      exact (ih _).2
    · show buildLoop cyclicCache 7 (n + 1) 2 acc = none
      simp only [buildLoop, lookupEntry, cyclicCache, List.find?]
      norm_num
      exact (ih _).1

/-- C1: the claim states that Builder.BuildFrom terminates on every cache
state, including cyclic reply-link data.  In the code the walk has no
visited set (only cache.Service.GetChain has one), so on the two-cycle
state it never finishes: for every fuel bound the loop is still running,
and BuildFrom(7, 1) yields no result at all. -/
theorem c1_buildFrom_diverges_on_cycle :
    ∀ fuel, buildFrom cyclicCache 7 1 fuel = none := by
  intro fuel
  unfold buildFrom
  rw [(cyclic_buildLoop_diverges fuel []).1]
  rfl

/-- Database holding the two cache tables the Go code addresses.  The cache
package's CacheEntry declares TableName cache_entries while the quotes
package's CacheEntry declares TableName cache_entry, so ingest and builder
queries run against distinct tables. -/
structure Db where
  cacheEntries : List CacheEntry
  cacheEntry : List CacheEntry
deriving Repr, DecidableEq

/-- Database with both cache tables empty. -/
def emptyDb : Db := ⟨[], []⟩

/-- Update the first row satisfying p, modelling a GORM update keyed on the
primary key of the row just fetched with First. -/
def updateFirst (p : CacheEntry → Bool) (f : CacheEntry → CacheEntry) :
    List CacheEntry → List CacheEntry
  | [] => []
  | e :: rest => if p e then f e :: rest else e :: updateFirst p f rest

/-- GORM Assign with a struct argument: fields holding Go zero values
(nil ReplyID pointer, zero ids and date) are skipped; the message JSON of a
marshalled struct is never empty so it is always assigned. -/
def gormAssignNonZero (old e : CacheEntry) : CacheEntry :=
  { chatID := if e.chatID == 0 then old.chatID else e.chatID
    messageID := if e.messageID == 0 then old.messageID else e.messageID
    replyID := match e.replyID with
      | none => old.replyID
      | some r => some r
    date := if e.date == 0 then old.date else e.date
    message := e.message }

/-- Service.Add (cache package): build a row from the message (ReplyID from
the nested reply's message id when present) and upsert it by
(chat_id, message_id) with Where(...).Assign(entry).FirstOrCreate(entry):
update the first matching row when one exists, otherwise insert a new row. -/
def serviceAdd (table : List CacheEntry) (msg : Msg) : List CacheEntry :=
  let entry : CacheEntry :=
    { chatID := msg.chatID
      messageID := msg.messageID
      replyID := msg.replyTo
      date := msg.date
      message := msg }
  let key := fun (e : CacheEntry) => e.chatID == msg.chatID && e.messageID == msg.messageID
  if (table.find? key).isSome then
    updateFirst key (fun old => gormAssignNonZero old entry) table
  else
    table ++ [entry]

/-- Cache ingest against the database: Service.Add writes through the cache
package's model, i.e. into table cache_entries. -/
def ingest (db : Db) (msg : Msg) : Db :=
  { db with cacheEntries := serviceAdd db.cacheEntries msg }

/-- Builder.BuildFrom against the database: the quotes package's CacheEntry
model reads table cache_entry. -/
def builderBuildFromDb (db : Db) (chatID messageID : Int) (fuel : Nat) :
    Option (Except BuildError BuildResult) :=
  buildFrom db.cacheEntry chatID messageID fuel

lemma ingest_preserves_cacheEntry (db : Db) (msg : Msg) :
    (ingest db msg).cacheEntry = db.cacheEntry := rfl

lemma foldl_ingest_cacheEntry (msgs : List Msg) :
    ∀ db : Db, (msgs.foldl ingest db).cacheEntry = db.cacheEntry := by
  induction msgs with
  | nil => intro db; rfl
  | cons m rest ih => intro db; rw [List.foldl_cons, ih, ingest_preserves_cacheEntry]

lemma buildLoop_empty_table (chatID : Int) (fuel : Nat) (currentID : Int) :
    buildLoop [] chatID (fuel + 1) currentID [] = some [] := by
  unfold buildLoop
  by_cases h : currentID == 0 <;> simp [h, lookupEntry]

/-- C2: the claim states that after any sequence of cache ingests forming a
reply chain, Builder.BuildFrom on the last message returns that chain,
because the builder reads back the same store the ingest path writes.  In
the code Service.Add writes table cache_entries while Builder.BuildFrom
reads table cache_entry, so starting from an empty database every build
after any ingest sequence whatsoever fails with notFound. -/
theorem c2_builder_never_sees_ingest :
    ∀ (msgs : List Msg) (chatID messageID : Int) (fuel : Nat),
      builderBuildFromDb (msgs.foldl ingest emptyDb) chatID messageID (fuel + 1) =
        some (Except.error (BuildError.notFound messageID chatID)) := by
  intro msgs chatID messageID fuel
  unfold builderBuildFromDb buildFrom
  rw [foldl_ingest_cacheEntry]
  show ((buildLoop [] chatID (fuel + 1) messageID []).map _) = _
  rw [buildLoop_empty_table]
  rfl

/-- Cleaner.clean (cache/clean path): with cutoff = now - keepDuration in
Unix seconds, issue DELETE WHERE date < cutoff; rows with date >= cutoff
survive.  The table is returned after the sweep. -/
def cleanSweep (table : List CacheEntry) (now keepDuration : Int) : List CacheEntry :=
  table.filter (fun e => !(e.date < now - keepDuration))

/-- Cache entry sitting exactly at the retention boundary: date equals
now - keepDuration for the sweep below (now = 100, keepDuration = 50). -/
def boundaryEntry : CacheEntry := ⟨1, 1, none, 50, dummyMsg⟩

/-- C3: the claim (and the repository's own test
TestClean_CorrectRetentionCalculation) says an entry whose date is exactly
now - retention is deleted.  The code deletes only date < cutoff, so the
boundary entry survives the sweep. -/
theorem c3_boundary_entry_retained :
    boundaryEntry.date = 100 - 50 ∧
      cleanSweep [boundaryEntry] 100 50 = [boundaryEntry] := by
  exact ⟨rfl, rfl⟩

/-- Edited-message payload, mirroring the Go struct cache.EditedMessage: a
subset of the message fields (no reply-to field at all). -/
structure EditedMsg where
  messageID : Int
  chatID : Int
  date : Int
  editDate : Int
  text : String
  fromUser : Option TgUser
deriving Repr, DecidableEq

/-- Field merge of EditCommand.Execute: on the message unmarshalled from
the stored row, overwrite Text with the edited text and From only when the
edit carries one; every other field keeps its stored value. -/
def applyEdit (orig : Msg) (em : EditedMsg) : Msg :=
  { orig with
    text := em.text
    fromUser := match em.fromUser with
      | some u => some u
      | none => orig.fromUser }

/-- EditCommand.Execute (cache package, table cache_entries): look up the
row by (chat_id, message_id); on a miss return with no change (nil error);
on a hit update only the message column of that row with the merged
payload. -/
def editExecute (table : List CacheEntry) (em : EditedMsg) : List CacheEntry :=
  match table.find? (fun e => e.chatID == em.chatID && e.messageID == em.messageID) with
  | none => table
  | some _ =>
    updateFirst (fun e => e.chatID == em.chatID && e.messageID == em.messageID)
      (fun e => { e with message := applyEdit e.message em }) table

lemma find?_updateFirst {p : CacheEntry → Bool} {f : CacheEntry → CacheEntry}
    {l : List CacheEntry} {e : CacheEntry} (h : l.find? p = some e) :
    ∃ i, l.get? i = some e ∧ updateFirst p f l = l.set i (f e) := by
  induction l with
  | nil => simp [List.find?] at h
  | cons a rest ih =>
    by_cases ha : p a
    · refine ⟨0, ?_, ?_⟩
      · simp only [List.find?_cons, ha, cond_true] at h
        simpa using h
      · simp only [List.find?_cons, ha, cond_true, Option.some.injEq] at h
        subst h
        simp [updateFirst, ha]
    · simp only [List.find?_cons, ha, cond_false] at h
      obtain ⟨i, hget, hupd⟩ := ih h
      refine ⟨i + 1, by simpa using hget, ?_⟩
      simp [updateFirst, ha, hupd]

/-- C4: Cache Edit on a missing (chat_id, message_id) succeeds and leaves
the table unchanged; on a hit it rewrites exactly one row, the first one
matching the key (which therefore belongs to the edit's chat), replacing
only its message payload: text is overwritten, from is overwritten only
when the edit carries one, and the payload's other fields as well as the
row's reply-link, date and identity columns keep their prior values.
Every other row, in this or any other chat, is untouched. -/
theorem c4_edit_frame :
    ∀ (table : List CacheEntry) (em : EditedMsg),
      (table.find? (fun e => e.chatID == em.chatID && e.messageID == em.messageID) = none →
        editExecute table em = table) ∧
      (∀ e, table.find? (fun e => e.chatID == em.chatID && e.messageID == em.messageID) = some e →
        e.chatID = em.chatID ∧ e.messageID = em.messageID ∧
        ∃ i, table.get? i = some e ∧
          editExecute table em = table.set i
            { e with message :=
              { e.message with
                text := em.text
                fromUser := match em.fromUser with
                  | some u => some u
                  | none => e.message.fromUser } }) := by
  intro table em
  constructor
  · intro hnone
    unfold editExecute
    rw [hnone]
  · intro e hfind
    have hkey := List.find?_some hfind
    simp only [Bool.and_eq_true, beq_iff_eq] at hkey
    refine ⟨hkey.1, hkey.2, ?_⟩
    obtain ⟨i, hget, hupd⟩ := find?_updateFirst
      (f := fun e => { e with message := applyEdit e.message em }) hfind
    refine ⟨i, hget, ?_⟩
    unfold editExecute
    rw [hfind, hupd]
    rfl

/-- Closed instance of the C4 no-hit branch: editing a message that is not
in the cache (different chat for the only cached row) changes nothing. -/
theorem c4_edit_frame_witness :
    editExecute [boundaryEntry] ⟨1, 2, 60, 61, "new", none⟩ = [boundaryEntry] :=
  (c4_edit_frame [boundaryEntry] ⟨1, 2, 60, 61, "new", none⟩).1 rfl

lemma buildLoop_extends (s : List CacheEntry) (chatID : Int) :
    ∀ (fuel : Nat) (currentID : Int) (acc es : List CacheEntry),
      buildLoop s chatID fuel currentID acc = some es →
      ∃ pre, es = pre ++ acc := by
  intro fuel
  induction fuel with
  | zero => intro currentID acc es h; exact absurd h (by simp [buildLoop])
  | succ n ih =>
    intro currentID acc es h
    unfold buildLoop at h
    by_cases h0 : currentID == 0
    · rw [if_pos h0] at h
      exact ⟨[], by simpa using h.symm⟩
    · rw [if_neg h0] at h
      cases hfind : lookupEntry s chatID currentID with
      | none =>
        rw [hfind] at h
        exact ⟨[], by simpa using h.symm⟩
      | some entry =>
        rw [hfind] at h
        dsimp only at h
        cases hr : entry.replyID with
        | none =>
          rw [hr] at h
          exact ⟨[entry], by simpa using h.symm⟩
        | some r =>
          rw [hr] at h
          dsimp only at h
          by_cases hrz : r == 0
          · rw [if_pos hrz] at h
            exact ⟨[entry], by simpa using h.symm⟩
          · rw [if_neg hrz] at h
            obtain ⟨pre, hpre⟩ := ih r (entry :: acc) es h
            exact ⟨pre ++ [entry], by simp [hpre]⟩

lemma buildLoop_start_found {s : List CacheEntry} {chatID : Int} {fuel : Nat}
    {messageID : Int} {entry : CacheEntry} {es : List CacheEntry}
    (hmsg : messageID ≠ 0) (hfind : lookupEntry s chatID messageID = some entry)
    (hrun : buildLoop s chatID fuel messageID [] = some es) : es ≠ [] := by
  cases fuel with
  | zero => exact absurd hrun (by simp [buildLoop])
  | succ n =>
    unfold buildLoop at hrun
    rw [if_neg (by simpa using hmsg), hfind] at hrun
    dsimp only at hrun
    cases hr : entry.replyID with
    | none =>
      rw [hr] at hrun
      simp only [Option.some.injEq] at hrun
      simp [← hrun]
    | some r =>
      rw [hr] at hrun
      dsimp only at hrun
      by_cases hrz : r == 0
      · rw [if_pos hrz] at hrun
        simp only [Option.some.injEq] at hrun
        simp [← hrun]
      · rw [if_neg hrz] at hrun
        obtain ⟨pre, hpre⟩ := buildLoop_extends s chatID n r (entry :: []) es hrun
        simp [hpre]

/-- C5 amended: for a non-zero starting message id, a terminating
Builder.BuildFrom run fails with notFound exactly when the starting lookup
in that chat misses; whenever the starting entry exists (in particular
when an earlier link of its reply chain is missing from the cache) the run
succeeds with a non-empty chain for that chat. -/
theorem c5_notFound_iff_start_missing :
    ∀ (s : List CacheEntry) (chatID messageID : Int) (fuel : Nat)
      (r : Except BuildError BuildResult),
      messageID ≠ 0 →
      buildFrom s chatID messageID fuel = some r →
      ((r = Except.error (BuildError.notFound messageID chatID)) ↔
        lookupEntry s chatID messageID = none) ∧
      (∀ e, lookupEntry s chatID messageID = some e →
        ∃ br, r = Except.ok br ∧ br.chatID = chatID ∧ br.entries ≠ []) := by
  intro s chatID messageID fuel r hmsg hrunFrom
  unfold buildFrom at hrunFrom
  cases hrun : buildLoop s chatID fuel messageID [] with
  | none => rw [hrun] at hrunFrom; exact absurd hrunFrom (by simp)
  | some es =>
    rw [hrun] at hrunFrom
    simp only [Option.map_some', Option.some.injEq] at hrunFrom
    cases hfind : lookupEntry s chatID messageID with
    | none =>
      have hes : es = [] := by
        cases fuel with
        | zero => exact absurd hrun (by simp [buildLoop])
        | succ n =>
          unfold buildLoop at hrun
          rw [if_neg (by simpa using hmsg), hfind] at hrun
          simpa using hrun.symm
      subst hes
      constructor
      · simpa using hrunFrom.symm
      · intro e he; simp at he
    | some entry =>
      have hne : es ≠ [] := buildLoop_start_found hmsg hfind hrun
      have hok : r = Except.ok ⟨es, chatID⟩ := by
        rw [← hrunFrom, if_neg (by simpa using hne)]
      constructor
      · rw [hok]; simp
      · intro e _
        exact ⟨⟨es, chatID⟩, hok, rfl, hne⟩

/-- Cache state whose only entry has message id 0 (in chat 3). -/
def zeroIdCache : List CacheEntry := [⟨3, 0, none, 10, dummyMsg⟩]

/-- C5 counterexample: with starting message id 0, the starting lookup
would match a cache entry, yet BuildFrom fails with notFound, because the
loop condition currentID != 0 is false before the first lookup.  So the
claimed equivalence, and the claim that the walk succeeds whenever the
starting entry exists, both fail at message id 0. -/
theorem c5_counterexample_zero_id :
    lookupEntry zeroIdCache 3 0 = some ⟨3, 0, none, 10, dummyMsg⟩ ∧
      buildFrom zeroIdCache 3 0 5 = some (Except.error (BuildError.notFound 0 3)) :=
  ⟨rfl, rfl⟩

/-- Single-entry cache used to instantiate the amended C5 theorem. -/
def singleChain : List CacheEntry := [⟨1, 2, none, 5, dummyMsg⟩]

/-- Closed instance of amended C5: on a one-entry cache the terminating
build starting at the present entry succeeds with a non-empty chain. -/
theorem c5_notFound_iff_start_missing_witness :
    ∃ br, buildFrom singleChain 1 2 3 = some (Except.ok br) ∧
      br.chatID = 1 ∧ br.entries ≠ [] := by
  have h := (c5_notFound_iff_start_missing singleChain 1 2 3
      (Except.ok ⟨[⟨1, 2, none, 5, dummyMsg⟩], 1⟩) (by decide) rfl).2
      ⟨1, 2, none, 5, dummyMsg⟩ rfl
  obtain ⟨br, hbr, hc, hne⟩ := h
  refine ⟨br, ?_, hc, hne⟩
  rw [← hbr]
  rfl

/-- Row of the quote_entry table, mirroring the Go struct QuoteEntry:
0-based order, message payload and owning quote id. -/
structure QuoteEntry where
  order : Nat
  message : Msg
  quoteID : Nat
deriving Repr, DecidableEq

/-- Row of the quote table with its loaded entries, mirroring the Go
struct Quote.  The creator snapshot is an opaque user payload. -/
structure Quote where
  id : Nat
  creator : TgUser
  chatID : Int
  entries : List QuoteEntry
deriving Repr, DecidableEq

/-- Quote database: the persisted quotes (each with its entries) in
insertion order, plus the next BIGSERIAL surrogate id. -/
structure QuoteDb where
  quotes : List Quote
  nextID : Nat
deriving Repr, DecidableEq

/-- Arguments of Store.Store, mirroring the Go struct StoreOptions. -/
structure StoreOptions where
  creator : TgUser
  chatID : Int
  entries : List CacheEntry
deriving Repr, DecidableEq

/-- Failure of Store.Store in scope: the cannot-store-quote-with-no-entries
error (store.go line 34). -/
inductive StoreError where
  | emptyEntries
deriving Repr, DecidableEq

/-- Loop body of Store.Store assigning orders: for i, entry := range
opts.Entries, create a QuoteEntry with Order i and the entry's message. -/
def mkQuoteEntries (quoteID : Nat) : Nat → List CacheEntry → List QuoteEntry
  | _, [] => []
  | i, e :: rest => ⟨i, e.message, quoteID⟩ :: mkQuoteEntries quoteID (i + 1) rest

/-- Store.Store: reject an empty entry list before touching the database;
otherwise, in one transaction, create the quote row (receiving the next
surrogate id) and one quote_entry row per input entry with order 0,1,2,...
The persisted quote is reloaded and returned with its entries. -/
def storeQuote (qdb : QuoteDb) (opts : StoreOptions) :
    QuoteDb × Except StoreError Quote :=
  if opts.entries.isEmpty then (qdb, Except.error StoreError.emptyEntries)
  else
    let q : Quote :=
      { id := qdb.nextID
        creator := opts.creator
        chatID := opts.chatID
        entries := mkQuoteEntries qdb.nextID 0 opts.entries }
    ({ quotes := qdb.quotes ++ [q], nextID := qdb.nextID + 1 }, Except.ok q)

/-- C6: Store.Store called with an empty entry list always fails with the
empty-entries error and leaves the quote database exactly as it was: no
quote row and no quote-entry row is persisted. -/
theorem c6_store_empty_fails_unchanged :
    ∀ (qdb : QuoteDb) (creator : TgUser) (chatID : Int),
      storeQuote qdb ⟨creator, chatID, []⟩ = (qdb, Except.error StoreError.emptyEntries) := by
  intro qdb creator chatID
  rfl

lemma mkQuoteEntries_length (quoteID : Nat) :
    ∀ (i : Nat) (es : List CacheEntry), (mkQuoteEntries quoteID i es).length = es.length := by
  intro i es
  induction es generalizing i with
  | nil => rfl
  | cons e rest ih => simp [mkQuoteEntries, ih]

lemma mkQuoteEntries_orders (quoteID : Nat) :
    ∀ (i : Nat) (es : List CacheEntry),
      (mkQuoteEntries quoteID i es).map QuoteEntry.order = List.range' i es.length := by
  intro i es
  induction es generalizing i with
  | nil => rfl
  | cons e rest ih => simp [mkQuoteEntries, List.range', ih]

lemma mkQuoteEntries_get? (quoteID : Nat) :
    ∀ (i k : Nat) (es : List CacheEntry),
      ((mkQuoteEntries quoteID i es).get? k).map QuoteEntry.message =
        (es.get? k).map CacheEntry.message := by
  intro i k es
  induction es generalizing i k with
  | nil => rfl
  | cons e rest ih =>
    cases k with
    | zero => rfl
    | succ m => simpa [mkQuoteEntries] using ih (i + 1) m

/-- C7: Store.Store on a non-empty entry list persists exactly one new
quote; that quote has at least one entry, its entry orders are exactly
0,...,N-1 in list position order (entry i of the input receives order i),
and the messages returned after the reload match the input messages
position by position. -/
theorem c7_store_orders_dense :
    ∀ (qdb : QuoteDb) (opts : StoreOptions), opts.entries ≠ [] →
      ∃ q : Quote,
        storeQuote qdb opts = ({ quotes := qdb.quotes ++ [q], nextID := qdb.nextID + 1 }, Except.ok q) ∧
        q.entries ≠ [] ∧
        q.entries.length = opts.entries.length ∧
        q.entries.map QuoteEntry.order = List.range opts.entries.length ∧
        (∀ k : Nat, (q.entries.get? k).map QuoteEntry.message =
          (opts.entries.get? k).map CacheEntry.message) := by
  intro qdb opts hne
  refine ⟨{ id := qdb.nextID, creator := opts.creator, chatID := opts.chatID,
            entries := mkQuoteEntries qdb.nextID 0 opts.entries }, ?_, ?_, ?_, ?_, ?_⟩
  · unfold storeQuote
    rw [if_neg (by simpa using hne)]
  · intro hcontra
    dsimp only at hcontra
    have hlen := mkQuoteEntries_length qdb.nextID 0 opts.entries
    rw [hcontra] at hlen
    exact hne (List.length_eq_zero.mp hlen.symm)
  · dsimp only
    exact mkQuoteEntries_length qdb.nextID 0 opts.entries
  · dsimp only
    rw [mkQuoteEntries_orders, List.range_eq_range']
  · intro k
    dsimp only
    exact mkQuoteEntries_get? qdb.nextID 0 k opts.entries

/-- Closed instance of C7 at a concrete two-entry input. -/
theorem c7_store_orders_dense_witness :
    ∃ q : Quote,
      storeQuote ⟨[], 1⟩ ⟨⟨9, "C", "", ""⟩, 5, [⟨5, 2, none, 11, dummyMsg⟩, ⟨5, 3, some 2, 12, dummyMsg⟩]⟩ =
        ({ quotes := [] ++ [q], nextID := 1 + 1 }, Except.ok q) ∧
      q.entries ≠ [] ∧
      q.entries.length = [⟨5, 2, none, 11, dummyMsg⟩, (⟨5, 3, some 2, 12, dummyMsg⟩ : CacheEntry)].length ∧
      q.entries.map QuoteEntry.order = List.range [⟨5, 2, none, 11, dummyMsg⟩, (⟨5, 3, some 2, 12, dummyMsg⟩ : CacheEntry)].length ∧
      (∀ k : Nat, (q.entries.get? k).map QuoteEntry.message =
        ([⟨5, 2, none, 11, dummyMsg⟩, (⟨5, 3, some 2, 12, dummyMsg⟩ : CacheEntry)].get? k).map CacheEntry.message) :=
  c7_store_orders_dense ⟨[], 1⟩
    ⟨⟨9, "C", "", ""⟩, 5, [⟨5, 2, none, 11, dummyMsg⟩, ⟨5, 3, some 2, 12, dummyMsg⟩]⟩
    (by decide)

/-- AddQuoteHandler.buildFromReplyMessage: synthesize a one-entry build
result from the literal replied-to message: its chat id, its message id,
and its serialized content; ReplyID and Date keep their Go zero values. -/
def buildFromReplyMessage (replyMsg : Msg) : BuildResult :=
  { entries := [{ chatID := replyMsg.chatID
                  messageID := replyMsg.messageID
                  replyID := none
                  date := 0
                  message := replyMsg }]
    chatID := replyMsg.chatID }

/-- Build-result selection of AddQuoteHandler.Handle: try
Builder.BuildFrom on the replied-to message id in the command's chat, and
on any builder error fall back to buildFromReplyMessage. -/
def addQuoteBuildResult (s : List CacheEntry) (chatID : Int) (replyMsg : Msg)
    (fuel : Nat) : Option BuildResult :=
  match buildFrom s chatID replyMsg.messageID fuel with
  | some (Except.ok r) => some r
  | some (Except.error _) => some (buildFromReplyMessage replyMsg)
  | none => none

/-- AddQuoteHandler.Handle after the reply check: pick the build result,
then persist it with Store.StoreFromBuild, which forwards the result's
chat id and entries to Store.Store. -/
def addQuoteHandle (s : List CacheEntry) (qdb : QuoteDb) (creator : TgUser)
    (chatID : Int) (replyMsg : Msg) (fuel : Nat) :
    Option (QuoteDb × Except StoreError Quote) :=
  (addQuoteBuildResult s chatID replyMsg fuel).map
    (fun r => storeQuote qdb ⟨creator, r.chatID, r.entries⟩)

/-- C8: whenever Builder.BuildFrom fails for the replied-to message, the
/addquote handler stores the synthesized one-entry result built from the
literal replied-to message (its chat id, message id and serialized
content), and that store succeeds: the persisted quote carries exactly the
replied-to message, so the command never fails solely because the cache
had no entry for it. -/
theorem c8_fallback_stores_literal_message :
    ∀ (s : List CacheEntry) (qdb : QuoteDb) (creator : TgUser) (chatID : Int)
      (replyMsg : Msg) (fuel : Nat) (err : BuildError),
      buildFrom s chatID replyMsg.messageID fuel = some (Except.error err) →
      addQuoteHandle s qdb creator chatID replyMsg fuel =
        some (storeQuote qdb ⟨creator, replyMsg.chatID,
          [⟨replyMsg.chatID, replyMsg.messageID, none, 0, replyMsg⟩]⟩) ∧
      ∃ (q : Quote) (qdb2 : QuoteDb),
        addQuoteHandle s qdb creator chatID replyMsg fuel = some (qdb2, Except.ok q) ∧
        q.chatID = replyMsg.chatID ∧
        q.entries.map QuoteEntry.message = [replyMsg] := by
  intro s qdb creator chatID replyMsg fuel err hbuild
  have hsel : addQuoteBuildResult s chatID replyMsg fuel =
      some (buildFromReplyMessage replyMsg) := by
    unfold addQuoteBuildResult
    rw [hbuild]
  constructor
  · unfold addQuoteHandle
    rw [hsel]
    rfl
  · refine ⟨{ id := qdb.nextID, creator := creator, chatID := replyMsg.chatID,
              entries := [⟨0, replyMsg, qdb.nextID⟩] },
            { quotes := qdb.quotes ++
                [{ id := qdb.nextID, creator := creator, chatID := replyMsg.chatID,
                   entries := [⟨0, replyMsg, qdb.nextID⟩] }],
              nextID := qdb.nextID + 1 }, ?_, rfl, rfl⟩
    unfold addQuoteHandle
    rw [hsel]
    rfl

/-- Closed instance of C8: on an empty cache table the builder fails at
once and the handler stores the literal replied-to message. -/
theorem c8_fallback_stores_literal_message_witness :
    addQuoteHandle [] ⟨[], 1⟩ ⟨9, "C", "", ""⟩ 2 ⟨4, 2, 99, "hi", none, none⟩ 1 =
      some (storeQuote ⟨[], 1⟩ ⟨⟨9, "C", "", ""⟩, 2, [⟨2, 4, none, 0, ⟨4, 2, 99, "hi", none, none⟩⟩]⟩) :=
  (c8_fallback_stores_literal_message [] ⟨[], 1⟩ ⟨9, "C", "", ""⟩ 2
    ⟨4, 2, 99, "hi", none, none⟩ 1 (BuildError.notFound 4 2) rfl).1

/-- Renderer.buildAuthorName: collect the non-empty name parts, join them
with a space, fall back to the at-prefixed username and then to the
literal Unknown. -/
def buildAuthorName (firstName lastName username : String) : String :=
  let parts := (if firstName == "" then [] else [firstName]) ++
    (if lastName == "" then [] else [lastName])
  let name := String.intercalate " " parts
  let name2 := if name == "" && username != "" then "@" ++ username else name
  if name2 == "" then "Unknown" else name2

/-- Renderer.renderEntry: unmarshal the message payload (text and the
sender's name fields, absent sender giving Go zero-value strings), build
the author name and format AuthorName colon space Text, with the literal
no-text marker for an empty text. -/
def renderEntry (entry : QuoteEntry) : String :=
  let first := match entry.message.fromUser with
    | some u => u.firstName
    | none => ""
  let last := match entry.message.fromUser with
    | some u => u.lastName
    | none => ""
  let uname := match entry.message.fromUser with
    | some u => u.username
    | none => ""
  let text := if entry.message.text == "" then "(no text)" else entry.message.text
  buildAuthorName first last uname ++ ": " ++ text

/-- Renderer.Render: reject a nil quote and a quote with no entries; else
render each entry, join with newlines, and when includeID is set put the
hash-id line in front.  The result carries the text and the entry count
(the Go RenderResult). -/
def renderQuote (quote : Option Quote) (includeID : Bool) :
    Except String (String × Nat) :=
  match quote with
  | none => Except.error "cannot render nil quote"
  | some q =>
    if q.entries.isEmpty then Except.error "cannot render quote with no entries"
    else
      let text := String.intercalate "\n" (q.entries.map renderEntry)
      Except.ok (if includeID then "#" ++ toString q.id ++ "\n" ++ text else text,
        q.entries.length)

lemma append_left_ne_empty (f g : String) (hf : f ≠ "") : f ++ g ≠ "" := by
  intro h
  apply hf
  have hd := congrArg String.data h
  rw [String.data_append] at hd
  exact String.ext (List.append_eq_nil.mp hd).1

lemma at_append_ne_empty (u : String) : "@" ++ u ≠ "" := by
  intro h
  have hd := congrArg String.data h
  rw [String.data_append] at hd
  exact absurd (List.append_eq_nil.mp hd).1 (by simp)

lemma intercalate_space_pair (a b : String) :
    String.intercalate " " [a, b] = a ++ " " ++ b := rfl

lemma intercalate_space_single (a : String) :
    String.intercalate " " [a] = a := rfl

lemma intercalate_space_nil : String.intercalate " " [] = "" := rfl

lemma buildAuthorName_eq_priority (f l u : String) :
    buildAuthorName f l u =
      if f ≠ "" then (if l ≠ "" then f ++ " " ++ l else f)
      else if l ≠ "" then l
      else if u ≠ "" then "@" ++ u
      else "Unknown" := by
  unfold buildAuthorName
  dsimp only
  by_cases hf : f = ""
  · by_cases hl : l = ""
    · by_cases hu : u = ""
      · simp [hf, hl, hu, intercalate_space_nil]
      · simp [hf, hl, hu, intercalate_space_nil, at_append_ne_empty u]
    · simp [hf, hl, intercalate_space_single]
  · by_cases hl : l = ""
    · simp [hf, hl, intercalate_space_single]
    · have hne : f ++ " " ++ l ≠ "" :=
        append_left_ne_empty (f ++ " ") l (append_left_ne_empty f " " hf)
      simp [hf, hl, intercalate_space_pair, hne]

lemma renderEntry_eq_spec (e : QuoteEntry) :
    renderEntry e =
      (if (e.message.fromUser.map TgUser.firstName).getD "" ≠ "" then
        (if (e.message.fromUser.map TgUser.lastName).getD "" ≠ "" then
          (e.message.fromUser.map TgUser.firstName).getD "" ++ " " ++
            (e.message.fromUser.map TgUser.lastName).getD ""
         else (e.message.fromUser.map TgUser.firstName).getD "")
       else if (e.message.fromUser.map TgUser.lastName).getD "" ≠ "" then
         (e.message.fromUser.map TgUser.lastName).getD ""
       else if (e.message.fromUser.map TgUser.username).getD "" ≠ "" then
         "@" ++ (e.message.fromUser.map TgUser.username).getD ""
       else "Unknown") ++ ": " ++
      (if e.message.text = "" then "(no text)" else e.message.text) := by
  unfold renderEntry
  dsimp only
  rw [buildAuthorName_eq_priority]
  cases hfu : e.message.fromUser <;> by_cases ht : e.message.text = "" <;>
    simp [hfu, ht]

/-- C9: Renderer.Render errors on a nil quote and on a quote with no
entries; otherwise each entry renders as AuthorName colon space Text with
entries joined by newline in stored order, where the author name is the
first name (last name appended when also present), else the last name,
else the at-prefixed username, else Unknown; an empty text renders as the
no-text marker; and with includeID set the whole result is prefixed by the
hash-id and a newline. -/
theorem c9_render_format :
    (∀ includeID, renderQuote none includeID = Except.error "cannot render nil quote") ∧
    (∀ (q : Quote) (includeID : Bool), q.entries = [] →
      renderQuote (some q) includeID = Except.error "cannot render quote with no entries") ∧
    (∀ (q : Quote) (includeID : Bool), q.entries ≠ [] →
      renderQuote (some q) includeID = Except.ok
        ((if includeID then "#" ++ toString q.id ++ "\n" else "") ++
          String.intercalate "\n" (q.entries.map (fun e =>
            (if (e.message.fromUser.map TgUser.firstName).getD "" ≠ "" then
              (if (e.message.fromUser.map TgUser.lastName).getD "" ≠ "" then
                (e.message.fromUser.map TgUser.firstName).getD "" ++ " " ++
                  (e.message.fromUser.map TgUser.lastName).getD ""
               else (e.message.fromUser.map TgUser.firstName).getD "")
             else if (e.message.fromUser.map TgUser.lastName).getD "" ≠ "" then
               (e.message.fromUser.map TgUser.lastName).getD ""
             else if (e.message.fromUser.map TgUser.username).getD "" ≠ "" then
               "@" ++ (e.message.fromUser.map TgUser.username).getD ""
             else "Unknown") ++ ": " ++
            (if e.message.text = "" then "(no text)" else e.message.text))),
          q.entries.length)) := by
  refine ⟨fun _ => rfl, ?_, ?_⟩
  · intro q includeID hq
    unfold renderQuote
    dsimp only
    rw [if_pos (by simpa using hq)]
  · intro q includeID hq
    unfold renderQuote
    dsimp only
    rw [if_neg (by simpa using hq),
      List.map_congr_left (fun e _ => renderEntry_eq_spec e)]
    cases includeID
    · rfl
    · rfl

/-- Quote used to instantiate C9: id 42, one entry by John saying
Hello world. -/
def johnQuote : Quote :=
  ⟨42, ⟨9, "C", "", ""⟩, 1, [⟨0, ⟨1, 1, 100, "Hello world", some ⟨8, "John", "", ""⟩, none⟩, 42⟩]⟩

/-- Closed instance of C9: the John quote with includeID renders exactly
to the hash-42 line followed by the John line. -/
theorem c9_render_format_witness :
    renderQuote (some johnQuote) true = Except.ok ("#42\nJohn: Hello world", 1) := by
  have h := c9_render_format.2.2 johnQuote true (by simp [johnQuote])
  rw [h]
  rfl

/-- Loop of Service.GetChain (cache package): before each lookup check the
visited set and stop on a revisit; on a lookup miss stop; otherwise
prepend the row and follow ReplyID whenever it is present, with no
non-zero check.  Fuel bounds the unfolded iterations as in buildLoop. -/
def getChainLoop (s : List CacheEntry) (chatID : Int) :
    Nat → Int → List Int → List CacheEntry → Option (List CacheEntry)
  | 0, _, _, _ => none
  | fuel + 1, currentID, seen, entries =>
    if currentID ∈ seen then some entries
    else
      match lookupEntry s chatID currentID with
      | none => some entries
      | some entry =>
        match entry.replyID with
        | none => some (entry :: entries)
        | some r => getChainLoop s chatID fuel r (currentID :: seen) (entry :: entries)

/-- Service.GetChain: run the loop from the starting message id with an
empty visited set; the collected entries are returned, empty or not. -/
def getChain (s : List CacheEntry) (chatID messageID : Int) (fuel : Nat) :
    Option (List CacheEntry) :=
  getChainLoop s chatID fuel messageID [] []

/-- C10 counterexample: the cache whose only entry of chat 3 carries
message id 0 is acyclic and contains the starting entry (3, 0), yet
Service.GetChain returns the one-entry chain while Builder.BuildFrom
returns the notFound error: the two walkers disagree there. -/
theorem c10_counterexample_zero_id :
    lookupEntry zeroIdCache 3 0 = some ⟨3, 0, none, 10, dummyMsg⟩ ∧
      getChain zeroIdCache 3 0 5 = some [⟨3, 0, none, 10, dummyMsg⟩] ∧
      buildFrom zeroIdCache 3 0 5 = some (Except.error (BuildError.notFound 0 3)) :=
  ⟨rfl, rfl, rfl⟩

/-- Acyclicity certificate formalizing the side condition of the claim:
following reply links from the given id (with the given already-visited
ids), the walk never revisits an id and bottoms out within the fuel. -/
def walkAcyclic (s : List CacheEntry) (chatID : Int) : Nat → Int → List Int → Bool
  | 0, _, _ => false
  | fuel + 1, currentID, seen =>
    if currentID ∈ seen then false
    else
      match lookupEntry s chatID currentID with
      | none => true
      | some entry =>
        match entry.replyID with
        | none => true
        | some r => walkAcyclic s chatID fuel r (currentID :: seen)

lemma lookupEntry_zero_none {s : List CacheEntry} {chatID : Int}
    (hz : ∀ x ∈ s, x.chatID = chatID → x.messageID ≠ 0) :
    lookupEntry s chatID 0 = none := by
  unfold lookupEntry
  rw [List.find?_eq_none]
  intro x hx
  simp only [Bool.and_eq_true, beq_iff_eq, not_and]
  intro hchat hmsg
  exact hz x hx hchat hmsg

lemma getChainLoop_zero {s : List CacheEntry} {chatID : Int}
    (hz : ∀ x ∈ s, x.chatID = chatID → x.messageID ≠ 0) :
    ∀ (fuel : Nat) (seen : List Int) (acc : List CacheEntry),
      walkAcyclic s chatID fuel 0 seen = true →
      getChainLoop s chatID fuel 0 seen acc = some acc := by
  intro fuel seen acc hw
  cases fuel with
  | zero => exact absurd hw (by simp [walkAcyclic])
  | succ n =>
    unfold walkAcyclic at hw
    by_cases hseen : (0 : Int) ∈ seen
    · rw [if_pos hseen] at hw
      exact absurd hw (by simp)
    · unfold getChainLoop
      rw [if_neg hseen, lookupEntry_zero_none hz]

lemma loops_agree {s : List CacheEntry} {chatID : Int}
    (hz : ∀ x ∈ s, x.chatID = chatID → x.messageID ≠ 0) :
    ∀ (fuel : Nat) (currentID : Int) (seen : List Int) (acc : List CacheEntry),
      currentID ≠ 0 →
      walkAcyclic s chatID fuel currentID seen = true →
      getChainLoop s chatID fuel currentID seen acc =
        buildLoop s chatID fuel currentID acc := by
  intro fuel
  induction fuel with
  | zero =>
    intro currentID seen acc _ hw
    exact absurd hw (by simp [walkAcyclic])
  | succ n ih =>
    intro currentID seen acc hcur hw
    unfold walkAcyclic at hw
    by_cases hseen : currentID ∈ seen
    · rw [if_pos hseen] at hw
      exact absurd hw (by simp)
    · rw [if_neg hseen] at hw
      unfold getChainLoop buildLoop
      rw [if_neg hseen, if_neg (by simpa using hcur)]
      cases hfind : lookupEntry s chatID currentID with
      | none => rfl
      | some entry =>
        rw [hfind] at hw
        dsimp only at hw
        dsimp only
        cases hr : entry.replyID with
        | none => rfl
        | some r =>
          rw [hr] at hw
          dsimp only at hw
          dsimp only
          by_cases hrz : r = 0
          · subst hrz
            rw [if_pos (by simp)]
            exact getChainLoop_zero hz n (currentID :: seen) (entry :: acc) hw
          · rw [if_neg (by simpa using hrz)]
            exact ih r (currentID :: seen) (entry :: acc) hrz hw

lemma buildLoop_some_of_walkAcyclic {s : List CacheEntry} {chatID : Int} :
    ∀ (fuel : Nat) (currentID : Int) (seen : List Int) (acc : List CacheEntry),
      walkAcyclic s chatID fuel currentID seen = true →
      ∃ es, buildLoop s chatID fuel currentID acc = some es := by
  intro fuel
  induction fuel with
  | zero =>
    intro currentID seen acc hw
    exact absurd hw (by simp [walkAcyclic])
  | succ n ih =>
    intro currentID seen acc hcur
    unfold walkAcyclic at hcur
    by_cases hseen : currentID ∈ seen
    · rw [if_pos hseen] at hcur
      exact absurd hcur (by simp)
    · rw [if_neg hseen] at hcur
      unfold buildLoop
      by_cases h0 : currentID == 0
      · exact ⟨acc, by rw [if_pos h0]⟩
      · rw [if_neg h0]
        cases hfind : lookupEntry s chatID currentID with
        | none => exact ⟨acc, rfl⟩
        | some entry =>
          rw [hfind] at hcur
          dsimp only at hcur
          dsimp only
          cases hr : entry.replyID with
          | none => exact ⟨entry :: acc, rfl⟩
          | some r =>
            rw [hr] at hcur
            dsimp only at hcur
            dsimp only
            by_cases hrz : r == 0
            · exact ⟨entry :: acc, by rw [if_pos hrz]⟩
            · rw [if_neg hrz]
              exact ih r (currentID :: seen) (entry :: acc) hcur

/-- C10 amended: on every cache state whose chat contains no entry with
message id 0, for a non-zero starting id whose walk is acyclic (and bottoms
out within the fuel) and whose starting entry is present, Service.GetChain
and Builder.BuildFrom return the same non-empty sequence of entries,
oldest first. -/
theorem c10_walkers_agree :
    ∀ (s : List CacheEntry) (chatID messageID : Int) (fuel : Nat) (e : CacheEntry),
      messageID ≠ 0 →
      (∀ x ∈ s, x.chatID = chatID → x.messageID ≠ 0) →
      walkAcyclic s chatID fuel messageID [] = true →
      lookupEntry s chatID messageID = some e →
      ∃ es, es ≠ [] ∧ getChain s chatID messageID fuel = some es ∧
        buildFrom s chatID messageID fuel = some (Except.ok ⟨es, chatID⟩) := by
  intro s chatID messageID fuel e hmsg hz hw hfind
  obtain ⟨es, hes⟩ := buildLoop_some_of_walkAcyclic fuel messageID [] [] hw
  have hne : es ≠ [] := buildLoop_start_found hmsg hfind hes
  refine ⟨es, hne, ?_, ?_⟩
  · unfold getChain
    rw [loops_agree hz fuel messageID [] [] hmsg hw, hes]
  · unfold buildFrom
    rw [hes]
    simp only [Option.map_some', Option.some.injEq]
    rw [if_neg (by simpa using hne)]

/-- Two-link chain in chat 1: message 2 replies to message 1, which is the
root; used to instantiate the amended C10 theorem. -/
def twoChain : List CacheEntry :=
  [⟨1, 2, some 1, 5, dummyMsg⟩, ⟨1, 1, none, 4, dummyMsg⟩]

/-- Closed instance of amended C10: on the two-link chain both walkers
return the same non-empty oldest-first sequence. -/
theorem c10_walkers_agree_witness :
    ∃ es, es ≠ [] ∧ getChain twoChain 1 2 3 = some es ∧
      buildFrom twoChain 1 2 3 = some (Except.ok ⟨es, 1⟩) :=
  c10_walkers_agree twoChain 1 2 3 ⟨1, 2, some 1, 5, dummyMsg⟩
    (by decide) (by decide) (by decide) rfl

end Wanon
